import Mathlib

/-!
Shallow embedding of the streaming-conversation core of `vocode-python`
(`vocode/streaming/streaming_conversation.py` and
`vocode/streaming/synthesizer/azure_synthesizer.py`), together with proofs
about the transcription-interrupt policy, the interruption broker, the
rate-paced speech emitter, the bot-has-spoken latch, termination, and the
empty-synthesis path.

Python strings are modelled as `List Char` (`PyStr`); floats that hold
confidences, thresholds and durations are modelled as `ℚ`.  Logging, tracing
spans, wall-clock sleeps and the third-party SDK calls are effect-free from
the point of view of the verified state and are not modelled; every
state-changing or control-flow-relevant line of the source is.
-/

namespace Vocode

/-- Python strings are modelled as lists of characters. -/
abbrev PyStr := List Char

/-- Model of `str.lower()` (basic-latin case folding, which is what the
transcripts use). -/
def pyToLower (s : PyStr) : PyStr := s.map Char.toLower

/-- Model of `str.strip()`: drop leading and trailing whitespace. -/
def pyStrip (s : PyStr) : PyStr :=
  ((s.dropWhile Char.isWhitespace).reverse.dropWhile Char.isWhitespace).reverse

/-- Helper for `pyWords`: accumulates the current word (reversed) while
scanning; mirrors how `str.split()` groups maximal non-whitespace runs. -/
def pyWordsAux : PyStr → PyStr → List PyStr
  | [], acc => if acc.isEmpty then [] else [acc.reverse]
  | c :: t, acc =>
    if c.isWhitespace then
      if acc.isEmpty then pyWordsAux t []
      else acc.reverse :: pyWordsAux t []
    else pyWordsAux t (c :: acc)

/-- Model of `str.split()` with no separator: maximal runs of non-whitespace
characters. -/
def pyWords (s : PyStr) : List PyStr := pyWordsAux s []

/-- Does `hay` start with `needle`? -/
def startsWith : PyStr → PyStr → Bool
  | _, [] => true
  | [], _ :: _ => false
  | c :: t, d :: u => c == d && startsWith t u

/-- Python's `needle in hay` substring test. -/
def containsSub (hay needle : PyStr) : Bool :=
  match hay with
  | [] => startsWith [] needle
  | c :: t => startsWith (c :: t) needle || containsSub t needle

/-- Python's `x or 0` on a float: `0.0` is falsy, anything else is itself. -/
def pyOr (q d : ℚ) : ℚ := if q = 0 then d else q

/-- The sentinel transcript message emitted by the voice-activity detector.
Modelled from the spec: the constant lives in
`vocode/streaming/transcriber/base_transcriber.py`, which is not part of the
sources; the spec only requires it to be a fixed reserved token that carries
no text of its own. -/
def HUMAN_ACTIVITY_DETECTED : PyStr := "human_activity_detected".toList

/-- A transcription produced by the transcriber
(`vocode/streaming/transcriber/base_transcriber.py` data model, as used by
`streaming_conversation.py`). -/
structure Transcription where
  message : PyStr
  confidence : ℚ
  is_final : Bool
  is_interrupt : Bool
deriving DecidableEq, Repr

/-- The fields of `TranscriberConfig` that `StreamingConversation` reads. -/
structure TranscriberConfig where
  min_interrupt_confidence : ℚ
  interruption_word_threshold : Nat
  mute_during_speech : Bool
deriving DecidableEq, Repr

/-- The fixed backchannel cues of `StreamingConversation.is_interrupt`
(`streaming_conversation.py` lines 697-699). -/
def verbal_cues : List PyStr :=
  ["uh".toList, "um".toList, "mhm".toList,
   "yes".toList, "yeah".toList, "okay".toList,
   "i see".toList, "i understand".toList, "go on".toList, "go ahead".toList]

/-- The policy `StreamingConversation.is_interrupt` (`streaming_conversation.py`
lines 683-715), the pure barge-in policy: sentinel always interrupts;
otherwise require confidence at least `min_interrupt_confidence or 0`, then
lowercase and strip the message, split it into words, and apply the word-count
and backchannel rules. -/
def is_interrupt (cfg : TranscriberConfig) (t : Transcription) : Bool :=
  if t.message = HUMAN_ACTIVITY_DETECTED then
    true
  else if pyOr cfg.min_interrupt_confidence 0 ≤ t.confidence then
    let message := pyStrip (pyToLower t.message)
    let words := pyWords message
    if words.length = 0 ∨ words.length = 1 then false
    else if (verbal_cues.any fun cue => containsSub message cue)
            ∧ words.length ≤ cfg.interruption_word_threshold then false
    else if cfg.interruption_word_threshold < words.length then true
    else true
  else false

/-- Number of whitespace-separated words in a message, as counted by the
source's `transcription.message.lower().strip().split()`; stated here on the
raw message, the normalisation lemmas below show the counts agree. -/
def wordCount (msg : PyStr) : Nat := (pyWords msg).length

/-- Case-insensitive backchannel-cue containment, as the source computes it:
one of the fixed cues occurs as a substring of the lowercased, stripped
message. -/
def containsBackchannelCue (msg : PyStr) : Bool :=
  verbal_cues.any fun cue => containsSub (pyStrip (pyToLower msg)) cue

/-- The interrupt policy exactly as claim C1 states it: sentinel, then the
confidence floor, then the 0/1-word rule, then the backchannel rule, then
true. -/
def is_interrupt_claim (cfg : TranscriberConfig) (t : Transcription) : Bool :=
  if t.message = HUMAN_ACTIVITY_DETECTED then true
  else if t.confidence < cfg.min_interrupt_confidence then false
  else if wordCount t.message ≤ 1 then false
  else if containsBackchannelCue t.message
          ∧ wordCount t.message ≤ cfg.interruption_word_threshold then false
  else true

theorem toNat_ofNat_valid {n : Nat} (h : n.isValidChar) :
    (Char.ofNat n).toNat = n := by
  simp [Char.ofNat, h, Char.ofNatAux, Char.toNat, UInt32.toNat]

theorem char_eq_iff_toNat (c d : Char) : (c = d) ↔ c.toNat = d.toNat := by
  constructor
  · intro h; rw [h]
  · intro h
    exact Char.eq_of_val_eq (UInt32.toNat.inj h)

/-- Lowercasing never turns a character into or out of whitespace. -/
theorem isWhitespace_toLower (c : Char) :
    c.toLower.isWhitespace = c.isWhitespace := by
  unfold Char.toLower
  simp only []
  split
  · rename_i h
    obtain ⟨h1, h2⟩ := h
    have hv : Nat.isValidChar (c.toNat + 32) := by
      left; omega
    have ht : (Char.ofNat (c.toNat + 32)).toNat = c.toNat + 32 :=
      toNat_ofNat_valid hv
    have hws : ∀ d : Char,
        d.isWhitespace
          = (d.toNat = 32 ∨ d.toNat = 9 ∨ d.toNat = 13 ∨ d.toNat = 10 : Bool) := by
      intro d
      have e1 : (' ' : Char).toNat = 32 := rfl
      have e2 : ('\t' : Char).toNat = 9 := rfl
      have e3 : ('\r' : Char).toNat = 13 := rfl
      have e4 : ('\n' : Char).toNat = 10 := rfl
      simp only [Char.isWhitespace, char_eq_iff_toNat, e1, e2, e3, e4,
        Bool.or_assoc, Bool.decide_or]
    rw [hws, hws, ht]
    simp only [decide_eq_decide]
    omega
  · rfl

theorem pyWordsAux_map_toLower (s : PyStr) :
    ∀ acc, pyWordsAux (pyToLower s) (pyToLower acc)
      = (pyWordsAux s acc).map pyToLower := by
  induction s with
  | nil =>
    intro acc
    cases acc <;> simp [pyWordsAux, pyToLower]
  | cons c t ih =>
    intro acc
    simp only [pyToLower, List.map_cons, pyWordsAux, isWhitespace_toLower]
    by_cases hws : c.isWhitespace
    · simp only [hws, if_true]
      cases acc with
      | nil =>
        simpa [pyToLower] using ih []
      | cons a as =>
        have h1 := ih []
        have h2 : pyToLower (a :: as) ≠ [] := by simp [pyToLower]
        simp [pyToLower, List.isEmpty, List.map_reverse] at h1 ⊢
        simpa [pyToLower] using h1
    · simp only [hws, if_false]
      simpa [pyToLower] using ih (c :: acc)

/-- Word count is stable under `str.lower()`. -/
theorem pyWords_toLower (s : PyStr) :
    pyWords (pyToLower s) = (pyWords s).map pyToLower := by
  simpa [pyToLower] using pyWordsAux_map_toLower s []

theorem pyWordsAux_all_ws (u : PyStr) (hu : ∀ c ∈ u, c.isWhitespace) :
    ∀ acc, pyWordsAux u acc = pyWordsAux [] acc := by
  induction u with
  | nil => intro acc; rfl
  | cons c t ih =>
    intro acc
    have hc : c.isWhitespace := hu c (by simp)
    have ht : ∀ d ∈ t, d.isWhitespace := fun d hd => hu d (by simp [hd])
    have h0 := ih ht []
    cases acc with
    | nil => simp [pyWordsAux, hc, h0]
    | cons a as => simp [pyWordsAux, hc, h0, List.isEmpty]

theorem pyWordsAux_append_ws (u : PyStr) (hu : ∀ c ∈ u, c.isWhitespace)
    (s : PyStr) : ∀ acc, pyWordsAux (s ++ u) acc = pyWordsAux s acc := by
  induction s with
  | nil =>
    intro acc
    simpa using pyWordsAux_all_ws u hu acc
  | cons c t ih =>
    intro acc
    by_cases hws : c.isWhitespace <;>
      cases acc <;> simp [pyWordsAux, hws, ih]

theorem pyWords_dropWhile_ws (s : PyStr) :
    pyWords (s.dropWhile Char.isWhitespace) = pyWords s := by
  induction s with
  | nil => rfl
  | cons c t ih =>
    by_cases hws : c.isWhitespace
    · simpa [List.dropWhile, hws, pyWords, pyWordsAux] using ih
    · simp [List.dropWhile, hws]

/-- Word count is stable under `str.strip()`. -/
theorem pyWords_pyStrip (s : PyStr) : pyWords (pyStrip s) = pyWords s := by
  set t := s.dropWhile Char.isWhitespace with htdef
  have hsplit : t = pyStrip s ++ (t.reverse.takeWhile Char.isWhitespace).reverse := by
    have h0 : t.reverse.takeWhile Char.isWhitespace
        ++ t.reverse.dropWhile Char.isWhitespace = t.reverse :=
      List.takeWhile_append_dropWhile Char.isWhitespace t.reverse
    calc t = t.reverse.reverse := by simp
    _ = (t.reverse.takeWhile Char.isWhitespace
          ++ t.reverse.dropWhile Char.isWhitespace).reverse := by rw [h0]
    _ = pyStrip s ++ (t.reverse.takeWhile Char.isWhitespace).reverse := by
          rw [List.reverse_append]; rfl
  have hwsuffix : ∀ c ∈ (t.reverse.takeWhile Char.isWhitespace).reverse,
      c.isWhitespace := by
    intro c hc
    rw [List.mem_reverse] at hc
    exact List.mem_takeWhile_imp hc
  have h1 : pyWords t = pyWords (pyStrip s) := by
    rw [hsplit]
    exact pyWordsAux_append_ws _ hwsuffix (pyStrip s) []
  have h2 : pyWords t = pyWords s := pyWords_dropWhile_ws s
  rw [← h1, h2]

/-- The word count the source computes (on the lowercased, stripped message)
equals the word count of the raw message. -/
theorem wordCount_normalized (msg : PyStr) :
    (pyWords (pyStrip (pyToLower msg))).length = wordCount msg := by
  rw [pyWords_pyStrip, pyWords_toLower, List.length_map]
  rfl

/-- C1: `StreamingConversation.is_interrupt` returns true on the
`HUMAN_ACTIVITY_DETECTED` sentinel; otherwise false when the confidence is
below `min_interrupt_confidence`; otherwise false when the message has 0 or 1
words; otherwise false when the message contains a fixed backchannel cue and
its word count is at most `interruption_word_threshold`; otherwise true (in
particular whenever the word count exceeds the threshold, since the policy's
final branch is true). -/
theorem is_interrupt_matches_policy (cfg : TranscriberConfig) (t : Transcription) :
    is_interrupt cfg t = is_interrupt_claim cfg t := by
  unfold is_interrupt is_interrupt_claim
  by_cases hs : t.message = HUMAN_ACTIVITY_DETECTED
  · simp [hs]
  · simp only [hs, if_false]
    have hor : pyOr cfg.min_interrupt_confidence 0 = cfg.min_interrupt_confidence := by
      unfold pyOr
      split <;> simp_all
    rw [hor]
    rcases le_or_lt cfg.min_interrupt_confidence t.confidence with h | h
    · rw [if_pos h, if_neg (not_lt.mpr h)]
      rw [wordCount_normalized t.message]
      have hcue : (verbal_cues.any fun cue =>
          containsSub (pyStrip (pyToLower t.message)) cue)
          = containsBackchannelCue t.message := rfl
      rw [hcue]
      by_cases h1 : wordCount t.message ≤ 1
      · have h1' : wordCount t.message = 0 ∨ wordCount t.message = 1 := by omega
        rw [if_pos h1', if_pos h1]
      · have h1' : ¬(wordCount t.message = 0 ∨ wordCount t.message = 1) := by omega
        rw [if_neg h1', if_neg h1]
        by_cases h2 : containsBackchannelCue t.message = true
            ∧ wordCount t.message ≤ cfg.interruption_word_threshold
        · rw [if_pos h2, if_pos h2]
        · rw [if_neg h2, if_neg h2, ite_self]
    · rw [if_neg (not_le.mpr h), if_pos h]

/-- Modelled from the spec: `InterruptibleEvent` lives in
`vocode/streaming/utils/worker.py`, which is not part of the sources.  Per
spec section 4.1 an event carries an interruptibility bit, an atomic
`interrupted` flag, and a one-shot completion tracker (`done` when set). -/
structure InterruptibleEvent where
  is_interruptible : Bool
  interrupted : Bool
  done : Bool
deriving DecidableEq, Repr

/-- Modelled from the spec: `is_interrupted()` reads the atomic flag. -/
def InterruptibleEvent.is_interrupted (e : InterruptibleEvent) : Bool :=
  e.interrupted

/-- Modelled from the spec: `interrupt(event)` is idempotent and returns true
on the first call when the event was interruptible and not yet done, false
otherwise; a successful call sets the `interrupted` flag. -/
def InterruptibleEvent.interrupt (e : InterruptibleEvent) :
    Bool × InterruptibleEvent :=
  if e.is_interruptible ∧ ¬ e.done ∧ ¬ e.interrupted then
    (true, { e with interrupted := true })
  else (false, e)

/-- A spawned asyncio task, as far as `terminate` observes it: whether it has
finished and whether it has been cancelled. -/
structure AsyncTask where
  done : Bool
  cancelled : Bool
deriving DecidableEq, Repr

/-- The state of a `StreamingConversation` that the verified code paths read
or write: the conversation flags, the central interruption registry, the hot
queues, and the supervisor tasks.  Queue payloads other than forwarded
transcriptions are abstract (`Nat` ids).  Note that
`agent_responses_worker.input_queue` IS `agent.output_queue` (constructor,
line 479), so a single field models both names. -/
structure ConvState where
  is_human_speaking : Bool
  human_has_spoken : Bool
  is_bot_speaking : Bool
  bot_has_spoken : Bool
  is_synthesizing : Bool
  is_interrupted : Bool
  sent_initial_message : Bool
  active : Bool
  current_transcription_is_interrupt : Bool
  last_action_timestamp : ℚ
  interruptible_events : List InterruptibleEvent
  agent_output_queue : List Nat
  synthesis_results_queue : List Nat
  output_device_queue : List Nat
  agent_input_queue : List Transcription
  transcript_complete_events : Nat
  initial_message_task : Option AsyncTask
  check_for_idle_task : Option AsyncTask
  track_bot_sentiment_task : Option AsyncTask
  events_task : Option AsyncTask
deriving DecidableEq, Repr

/-- Model of `StreamingConversation.clear_queue` (lines 717-724): repeatedly
`get_nowait` until the queue reports empty. -/
def clear_queue : List α → List α
  | [] => []
  | _ :: rest => clear_queue rest

/-- The drain loop of `broadcast_interrupt` (lines 657-666): pop every event
from the central registry; for each event that is not already interrupted,
attempt `interrupt()` and count the successes. -/
def drainRegistry : List InterruptibleEvent → Nat
  | [] => 0
  | e :: rest =>
    if ¬ e.is_interrupted then
      (if e.interrupt.1 then 1 else 0) + drainRegistry rest
    else drainRegistry rest

/-- Model of `StreamingConversation.broadcast_interrupt` (lines 652-681): drain the
central registry counting newly interrupted events, cancel the agent's and
the agent-responses worker's in-flight tasks and all random audios (actions
on collaborators outside this state), clear `is_synthesizing`, clear the hot
queues (`agent.output_queue` twice, since it is also the agent-responses
worker's input queue), and return whether any event was interrupted. -/
def broadcast_interrupt (s : ConvState) : ConvState × Bool :=
  let num_interrupts := drainRegistry s.interruptible_events
  ({ s with
      interruptible_events := [],
      is_synthesizing := false,
      agent_output_queue := clear_queue (clear_queue s.agent_output_queue),
      synthesis_results_queue := clear_queue s.synthesis_results_queue,
      output_device_queue := clear_queue s.output_device_queue },
   decide (0 < num_interrupts))

/-- Observable actions of `TranscriptionsWorker.process` on the
conversation's collaborators, in program order. -/
inductive Effect where
  | stopFollowUpAudio
  | broadcastedInterrupt (interrupted_any : Bool)
  | enqueueBacktrackAudio
  | forwardToAgent (t : Transcription)
deriving DecidableEq, Repr

/-- Lines 192-194: stamp the conversation's
`current_transcription_is_interrupt` onto the transcription before it is
forwarded. -/
def stampInterrupt (s : ConvState) (t : Transcription) : Transcription :=
  { t with is_interrupt := s.current_transcription_is_interrupt }

/-- Lines 195-212: set `is_human_speaking` from finality, then forward a
final non-sentinel transcription to the agent — the queueing factory also
registers the freshly created interruptible event on the central registry
(lines 97-104). -/
def processFinal (s : ConvState) (t' : Transcription) (effs : List Effect) :
    ConvState × List Effect :=
  if t'.is_final then
    if t'.message = HUMAN_ACTIVITY_DETECTED then
      ({ s with is_human_speaking := !t'.is_final }, effs)
    else
      ({ s with
          is_human_speaking := !t'.is_final,
          interruptible_events := s.interruptible_events
            ++ [{ is_interruptible := true, interrupted := false, done := false }],
          agent_input_queue := s.agent_input_queue ++ [t'] },
       effs ++ [Effect.forwardToAgent t'])
  else ({ s with is_human_speaking := !t'.is_final }, effs)

/-- Tail of `TranscriptionsWorker.process` after the interrupt check (lines
184-212): the low-confidence drop — which only fires when the interrupt
check ran (the `if should_check_interrupt:` guard on line 186) — followed by
`processFinal`. -/
def processRest (cfg : TranscriberConfig) (should_check : Bool)
    (s : ConvState) (t : Transcription) (effs : List Effect) :
    ConvState × List Effect :=
  if t.confidence < cfg.min_interrupt_confidence ∧ should_check then (s, effs)
  else processFinal s (stampInterrupt s t) effs

/-- The first two lines of `TranscriptionsWorker.process` (138-139): mark
the action timestamp and record the inbound transcription's interrupt flag. -/
def processEntry (now : ℚ) (s : ConvState) (t : Transcription) : ConvState :=
  { s with
      last_action_timestamp := now,
      current_transcription_is_interrupt := t.is_interrupt }

/-- Lines 149-151: latch `human_has_spoken` on a final transcription. -/
def latchHumanHasSpoken (s : ConvState) (t : Transcription) : ConvState :=
  if t.is_final ∧ ¬ s.human_has_spoken
    then { s with human_has_spoken := true } else s

/-- Lines 159-164: the interrupt check runs iff the bot is speaking, a
synthesis is in flight, or the initial message has not yet been sent (the
`is_human_speaking` disjunct is deliberately commented out in the source). -/
def should_check_interrupt (s : ConvState) : Bool :=
  s.is_bot_speaking || s.is_synthesizing || !s.sent_initial_message

/-- Lines 158-212: run the interrupt check when due — on a detected barge-in
broadcast the interrupt then request backtrack audio, otherwise drop the
transcription — and fall through to `processRest`. -/
def processChecked (cfg : TranscriberConfig) (s : ConvState)
    (t : Transcription) : ConvState × List Effect :=
  if should_check_interrupt s then
    if is_interrupt cfg t then
      processRest cfg (should_check_interrupt s)
        { (broadcast_interrupt s).1 with
            current_transcription_is_interrupt := (broadcast_interrupt s).2 } t
        [Effect.stopFollowUpAudio,
         Effect.broadcastedInterrupt (broadcast_interrupt s).2,
         Effect.enqueueBacktrackAudio]
    else (s, [Effect.stopFollowUpAudio])
  else processRest cfg (should_check_interrupt s) s t
    [Effect.stopFollowUpAudio]

/-- Model of `TranscriptionsWorker.process` (lines 137-212): mark the action
timestamp, record the inbound interrupt flag, drop empty transcriptions
(before any follow-up audio handling), stop follow-up audio, latch
`human_has_spoken` on finals, then run `processChecked`.  The effect trace
records, in program order, the observable actions on the collaborators;
`now` is the value of `time.time()`. -/
def TranscriptionsWorker.process (cfg : TranscriberConfig) (now : ℚ)
    (s0 : ConvState) (t : Transcription) : ConvState × List Effect :=
  if pyStrip t.message = ([] : PyStr) then (processEntry now s0 t, [])
  else processChecked cfg (latchHumanHasSpoken (processEntry now s0 t) t) t

/-- The `bot_has_spoken` update of `SynthesisResultsWorker.process` (lines
395-397): when the latch is still false, set it if the turn was not cut off
or more than five characters were sent. -/
def update_bot_has_spoken (bot_has_spoken cut_off : Bool)
    (message_sent : PyStr) : Bool :=
  if !bot_has_spoken then
    if !cut_off || decide (5 < message_sent.length) then true
    else bot_has_spoken
  else bot_has_spoken

/-- Model of `StreamingConversation.terminate` (lines 817-869) on the modelled state:
broadcast the interrupt, publish `TranscriptComplete` iff still active, flip
`active` off, then `if not self.initial_message_task.done(): ...cancel()` —
which dereferences `None` when no initial message was ever configured —
followed by the guarded cancellation of the idle, sentiment and events tasks.
The teardown of the synthesizer, agent, vector db, output device, transcriber
and workers acts only on external collaborators.  An uncaught Python
exception is modelled as `Except.error`. -/
def terminate (s0 : ConvState) : Except String ConvState :=
  let s := (broadcast_interrupt s0).1
  let s := if s.active
    then { s with transcript_complete_events := s.transcript_complete_events + 1 }
    else s
  let s := { s with active := false }
  match s.initial_message_task with
  | none =>
    Except.error "AttributeError: NoneType object has no attribute done"
  | some t0 =>
    let s := if ¬ t0.done
      then { s with initial_message_task := some { t0 with cancelled := true } }
      else s
    let s := match s.check_for_idle_task with
      | some k => { s with check_for_idle_task := some { k with cancelled := true } }
      | none => s
    let s := match s.track_bot_sentiment_task with
      | some k => { s with track_bot_sentiment_task := some { k with cancelled := true } }
      | none => s
    let s := match s.events_task with
      | some k => { s with events_task := some { k with cancelled := true } }
      | none => s
    Except.ok s

/-- One chunk of synthesized audio
(`SynthesisResult.ChunkResult` of `base_synthesizer.py` as consumed by
`send_speech_to_output`): the raw bytes plus the is-last marker. -/
structure ChunkResult where
  chunk : List Nat
  is_last : Bool
deriving DecidableEq, Repr

/-- A `SynthesisResult`: the (finite, single-consumer) chunk stream and the
`get_message_up_to` map from elapsed seconds to the spoken text so far. -/
structure SynthesisResult where
  chunk_generator : List ChunkResult
  get_message_up_to : ℚ → PyStr

/-- The running state of the `send_speech_to_output` loop: the local
variables `message_sent`, `cut_off`, `chunk_idx`, `seconds_spoken`, plus the
chunks shipped to the output device and `transcript_message.text` (when a
transcript message was supplied). -/
structure EmitState where
  message_sent : PyStr
  cut_off : Bool
  chunk_idx : Nat
  seconds_spoken : ℚ
  emitted : List (List Nat)
  transcript_text : Option PyStr
deriving DecidableEq, Repr

/-- The per-chunk tail of a `send_speech_to_output` iteration (lines
783-806): ship the chunk to the output device, sleep out the pacing budget,
mark the action timestamp, advance `chunk_idx` and `seconds_spoken`, and
update the transcript text to `get_message_up_to(seconds_spoken)`. -/
def emitChunk (spc : ℚ) (gmut : ℚ → PyStr) (c : ChunkResult)
    (st : EmitState) (cut_off : Bool) : EmitState :=
  { message_sent := st.message_sent
    cut_off := cut_off
    chunk_idx := st.chunk_idx + 1
    seconds_spoken := st.chunk_idx * spc + spc
    emitted := st.emitted ++ [c.chunk]
    transcript_text := st.transcript_text.map fun _ => gmut (st.chunk_idx * spc + spc) }

/-- The chunk loop of `send_speech_to_output` (lines 759-806).  At each
chunk: recompute `seconds_spoken = chunk_idx * seconds_per_chunk`; when the
stop event is set and the turn is not yet cut off, consult
`should_finish_sentence` — on true mark the turn cut off but keep emitting,
otherwise rewrite `message_sent` to `get_message_up_to(seconds_spoken) + "-"`,
mark cut off, and break; otherwise emit the chunk.  `stopSet i` models
`stop_event.is_set()` as observed at iteration `i`; `sfs` is the
user-supplied `should_finish_sentence` predicate from
`vocode/streaming/utils/duration_from_message.py` (not part of the sources). -/
def sendSpeechLoop (sfs : PyStr → ℚ → Bool) (spc : ℚ) (message : PyStr)
    (gmut : ℚ → PyStr) (stopSet : Nat → Bool) :
    List ChunkResult → EmitState → EmitState
  | [], st => st
  | c :: rest, st =>
    if stopSet st.chunk_idx ∧ ¬ st.cut_off then
      if sfs message (st.chunk_idx * spc) then
        sendSpeechLoop sfs spc message gmut stopSet rest
          (emitChunk spc gmut c st true)
      else
        { st with
            message_sent := gmut (st.chunk_idx * spc) ++ ['-'],
            cut_off := true,
            seconds_spoken := (st.chunk_idx * spc : ℚ) }
    else
      sendSpeechLoop sfs spc message gmut stopSet rest
        (emitChunk spc gmut c st st.cut_off)

/-- What `send_speech_to_output` produces: the returned triple
`(message_sent, cut_off, seconds_spoken)` together with the chunks shipped to
the output device and the final transcript text. -/
structure EmitResult where
  message_sent : PyStr
  cut_off : Bool
  seconds_spoken : ℚ
  emitted : List (List Nat)
  transcript_text : Option PyStr
deriving DecidableEq, Repr

/-- Model of `StreamingConversation.send_speech_to_output` (lines 726-812): initialise
`message_sent = message`, `cut_off = False`, run the chunk loop, and finally
(after unmuting the transcriber, an external effect) overwrite the transcript
text with `message_sent` when a transcript message was supplied. -/
def send_speech_to_output (sfs : PyStr → ℚ → Bool) (spc : ℚ)
    (message : PyStr) (sr : SynthesisResult) (stopSet : Nat → Bool)
    (transcript_message : Option PyStr) : EmitResult :=
  let st0 : EmitState :=
    { message_sent := message, cut_off := false, chunk_idx := 0,
      seconds_spoken := 0, emitted := [], transcript_text := transcript_message }
  let st := sendSpeechLoop sfs spc message sr.get_message_up_to stopSet
    sr.chunk_generator st0
  { message_sent := st.message_sent
    cut_off := st.cut_off
    seconds_spoken := st.seconds_spoken
    emitted := st.emitted
    transcript_text := st.transcript_text.map fun _ => st.message_sent }

/-- A Python `\w` word character (`re.search(r"\w", ...)` over the ASCII
range the transcripts use): alphanumeric or underscore. -/
def isWordChar (c : Char) : Bool := c.isAlphanum || c == '_'

/-- Whether `re.search(r"\w", text)` finds a match. -/
def containsWordChar (text : PyStr) : Bool := text.any isWordChar

/-- The empty-input guard of `AzureSynthesizer.create_speech`
(`azure_synthesizer.py` lines 320-330): when the message text has no `\w`
character, return a `SynthesisResult` with an empty chunk stream whose
`get_message_up_to` is constantly the message text.  `none` means the guard
did not fire and the code continues into the Azure SDK synthesis path (not
modelled), whose chunk generator always yields at least one chunk. -/
def create_speech_empty_path (text : PyStr) : Option SynthesisResult :=
  if ¬ containsWordChar text then
    some { chunk_generator := [], get_message_up_to := fun _ => text }
  else none

theorem clear_queue_eq_nil (l : List α) : clear_queue l = [] := by
  induction l with
  | nil => rfl
  | cons a t ih => simpa [clear_queue] using ih

/-- The drain loop counts exactly the registry events that are not yet
interrupted, are interruptible, and are not yet done. -/
theorem drainRegistry_pos_iff (l : List InterruptibleEvent) :
    0 < drainRegistry l
      ↔ ∃ e ∈ l, e.interrupted = false ∧ e.is_interruptible = true
          ∧ e.done = false := by
  induction l with
  | nil => simp [drainRegistry]
  | cons e t ih =>
    unfold drainRegistry InterruptibleEvent.is_interrupted
      InterruptibleEvent.interrupt
    by_cases h1 : e.interrupted
    · simp [h1, ih]
    · by_cases h2 : e.is_interruptible
      · by_cases h3 : e.done
        · simp [h1, h2, h3, ih]
        · simp [h1, h2, h3, ih]
      · simp [h1, h2, ih]

/-- C2: after `broadcast_interrupt` returns, the agent output queue (which is
also the agent-responses worker's input queue), the agent-responses worker's
output queue (the synthesis-results queue), and the output-device queue are
all empty, and the returned flag is true iff at least one event drained from
the central interruption registry was newly interrupted (not already
interrupted, interruptible, and not yet done). -/
theorem broadcast_interrupt_drains_queues (s : ConvState) :
    (broadcast_interrupt s).1.agent_output_queue = []
    ∧ (broadcast_interrupt s).1.synthesis_results_queue = []
    ∧ (broadcast_interrupt s).1.output_device_queue = []
    ∧ ((broadcast_interrupt s).2 = true
        ↔ ∃ e ∈ s.interruptible_events,
            e.interrupted = false ∧ e.is_interruptible = true
              ∧ e.done = false) := by
  refine ⟨clear_queue_eq_nil _, clear_queue_eq_nil _, clear_queue_eq_nil _, ?_⟩
  simpa [broadcast_interrupt] using drainRegistry_pos_iff s.interruptible_events

/-- C10: among the conversation flags, `broadcast_interrupt` mutates only
`is_synthesizing`, which it clears; `is_bot_speaking`, `bot_has_spoken`,
`is_human_speaking`, `human_has_spoken`, `sent_initial_message`,
`is_interrupted`, `active` and `last_action_timestamp` are untouched. -/
theorem broadcast_interrupt_flag_frame (s : ConvState) :
    (broadcast_interrupt s).1.is_synthesizing = false
    ∧ (broadcast_interrupt s).1.is_bot_speaking = s.is_bot_speaking
    ∧ (broadcast_interrupt s).1.bot_has_spoken = s.bot_has_spoken
    ∧ (broadcast_interrupt s).1.is_human_speaking = s.is_human_speaking
    ∧ (broadcast_interrupt s).1.human_has_spoken = s.human_has_spoken
    ∧ (broadcast_interrupt s).1.sent_initial_message = s.sent_initial_message
    ∧ (broadcast_interrupt s).1.is_interrupted = s.is_interrupted
    ∧ (broadcast_interrupt s).1.active = s.active
    ∧ (broadcast_interrupt s).1.last_action_timestamp = s.last_action_timestamp :=
  ⟨rfl, rfl, rfl, rfl, rfl, rfl, rfl, rfl, rfl⟩

/-- A conversation state with everything quiescent: all flags false, all
queues empty, no supervisor tasks. -/
def baseState : ConvState :=
  { is_human_speaking := false
    human_has_spoken := false
    is_bot_speaking := false
    bot_has_spoken := false
    is_synthesizing := false
    is_interrupted := false
    sent_initial_message := false
    active := false
    current_transcription_is_interrupt := false
    last_action_timestamp := 0
    interruptible_events := []
    agent_output_queue := []
    synthesis_results_queue := []
    output_device_queue := []
    agent_input_queue := []
    transcript_complete_events := 0
    initial_message_task := none
    check_for_idle_task := none
    track_bot_sentiment_task := none
    events_task := none }

/-- C4: a conversation configured without an `initial_message` never creates
the initial-message task, so `initial_message_task` is still `None` when
`terminate` runs; `terminate` then raises `AttributeError` at
`self.initial_message_task.done()` (line 824, the only task access without a
`None` guard) instead of completing its teardown, contradicting the spec's
"terminate always reaches completion". -/
theorem terminate_raises_without_initial_message_task :
    terminate { baseState with active := true }
      = Except.error "AttributeError: NoneType object has no attribute done" :=
  rfl

/-- The flag updates of `SynthesisResultsWorker.process` that follow the
emitter's return (lines 388-397): record the interruption, recompute
`is_bot_speaking` from the remaining queue and the interruption, and latch
`bot_has_spoken`. -/
def synthesisResultsFlagsAfterSend (s : ConvState) (cut_off : Bool)
    (message_sent : PyStr) : ConvState :=
  let s := { s with is_interrupted := cut_off }
  let s := { s with
    is_bot_speaking := !s.synthesis_results_queue.isEmpty && !s.is_interrupted }
  { s with bot_has_spoken :=
      update_bot_has_spoken s.bot_has_spoken cut_off message_sent }

/-- Counterexample to C7 as stated: a cut-off turn that sent exactly five
characters.  The claim says `bot_has_spoken` becomes true when at least 5
characters were sent, but the source (line 396) requires strictly more than
5 (`len(message_sent) > 5`), so the latch stays false here. -/
theorem bot_has_spoken_five_char_counterexample :
    ("Hi y-".toList : PyStr).length = 5
    ∧ (synthesisResultsFlagsAfterSend baseState true
        ("Hi y-".toList)).bot_has_spoken = false := by
  decide

/-- C7 (amended): after a bot turn, a previously false `bot_has_spoken`
becomes true exactly when the turn was not cut off or strictly more than 5
characters were sent; once true it never becomes false again. -/
theorem bot_has_spoken_latch (s : ConvState) (cut_off : Bool)
    (message_sent : PyStr) :
    ((synthesisResultsFlagsAfterSend s cut_off message_sent).bot_has_spoken
      = (s.bot_has_spoken || (!cut_off || decide (5 < message_sent.length))))
    ∧ (s.bot_has_spoken = true →
        (synthesisResultsFlagsAfterSend s cut_off
          message_sent).bot_has_spoken = true) := by
  constructor
  · cases h : s.bot_has_spoken <;>
      simp [synthesisResultsFlagsAfterSend, update_bot_has_spoken, h]
  · intro h
    simp [synthesisResultsFlagsAfterSend, update_bot_has_spoken, h]

/-- Closed instance of the latch theorem: an uninterrupted turn sets
`bot_has_spoken`, and it stays set afterwards. -/
theorem bot_has_spoken_latch_witness :
    (synthesisResultsFlagsAfterSend baseState false
      ("Hello.".toList)).bot_has_spoken = true
    ∧ (synthesisResultsFlagsAfterSend
        { baseState with bot_has_spoken := true } true []).bot_has_spoken
        = true := by
  constructor
  · rw [(bot_has_spoken_latch baseState false ("Hello.".toList)).1]
    decide
  · exact (bot_has_spoken_latch
      { baseState with bot_has_spoken := true } true []).2 rfl

/-- The transcriber configuration used by the concrete scenarios below
(integer-valued so that every comparison kernel-reduces). -/
def cfgDemo : TranscriberConfig :=
  { min_interrupt_confidence := 1
    interruption_word_threshold := 3
    mute_during_speech := false }

/-- A conversation state in which no interrupt check is needed: the bot is
silent, no synthesis is in flight, and the initial message has been sent. -/
def noCheckState : ConvState :=
  { baseState with sent_initial_message := true, active := true }

/-- A final, non-sentinel transcription whose confidence is below the
configured `min_interrupt_confidence` of `cfgDemo`. -/
def lowConfFinal : Transcription :=
  { message := "hello there friend".toList
    confidence := 0
    is_final := true
    is_interrupt := false }

/-- Counterexample to C5 as stated: in the no-check path a final non-sentinel
transcription with confidence below `min_interrupt_confidence` IS forwarded
to the agent — the low-confidence drop (line 185) sits under an
`if should_check_interrupt:` guard (line 186), so it never fires on this
path. -/
theorem low_confidence_forwarded_counterexample :
    lowConfFinal.confidence < cfgDemo.min_interrupt_confidence
    ∧ lowConfFinal.is_final = true
    ∧ lowConfFinal.message ≠ HUMAN_ACTIVITY_DETECTED
    ∧ noCheckState.is_bot_speaking = false
    ∧ noCheckState.is_synthesizing = false
    ∧ noCheckState.sent_initial_message = true
    ∧ (TranscriptionsWorker.process cfgDemo 7 noCheckState lowConfFinal).2
        = [Effect.stopFollowUpAudio, Effect.forwardToAgent lowConfFinal]
    ∧ (TranscriptionsWorker.process cfgDemo 7 noCheckState
        lowConfFinal).1.agent_input_queue = [lowConfFinal] := by
  decide

/-- The tail `processRest` only ever appends to the effect trace it is given. -/
theorem processRest_effects_append (cfg : TranscriberConfig) (b : Bool)
    (s : ConvState) (t : Transcription) (effs : List Effect) :
    ∃ tail, (processRest cfg b s t effs).2 = effs ++ tail := by
  unfold processRest processFinal
  split
  · exact ⟨[], by simp⟩
  · split
    · split
      · exact ⟨[], by simp⟩
      · exact ⟨_, rfl⟩
    · exact ⟨[], by simp⟩

/-- In `processRest` a forward effect appears (beyond those already in the
trace) iff the low-confidence guard does not fire and the transcription is
final and not the sentinel. -/
theorem processRest_forward_iff (cfg : TranscriberConfig) (b : Bool)
    (s : ConvState) (t : Transcription) (effs : List Effect)
    (hno : ∀ t', Effect.forwardToAgent t' ∉ effs) :
    (∃ t', Effect.forwardToAgent t' ∈ (processRest cfg b s t effs).2)
      ↔ ¬(t.confidence < cfg.min_interrupt_confidence ∧ b = true)
          ∧ t.is_final = true ∧ t.message ≠ HUMAN_ACTIVITY_DETECTED := by
  unfold processRest processFinal
  split
  · rename_i h
    constructor
    · rintro ⟨t', ht'⟩
      exact absurd ht' (hno t')
    · rintro ⟨hc, -, -⟩
      exact absurd h hc
  · rename_i h
    split
    · rename_i hfin
      split
      · rename_i hsent
        constructor
        · rintro ⟨t', ht'⟩
          exact absurd ht' (hno t')
        · rintro ⟨-, -, hs⟩
          exact absurd hsent hs
      · rename_i hsent
        constructor
        · rintro -
          exact ⟨h, hfin, hsent⟩
        · rintro -
          exact ⟨stampInterrupt s t, by simp⟩
    · rename_i hfin
      constructor
      · rintro ⟨t', ht'⟩
        exact absurd ht' (hno t')
      · rintro ⟨-, hf, -⟩
        exact absurd hf hfin

/-- C5 (amended): when no interrupt check is needed (the bot is not speaking,
synthesis is not in progress, and the initial message has been sent), a
`TranscriptionAgentInput` is forwarded to the agent iff the transcription is
final, non-empty after stripping, and not the sentinel — its confidence is
not consulted on this path. -/
theorem no_check_forward_iff (cfg : TranscriberConfig) (now : ℚ)
    (s : ConvState) (t : Transcription)
    (hbot : s.is_bot_speaking = false) (hsyn : s.is_synthesizing = false)
    (hinit : s.sent_initial_message = true) :
    (∃ t', Effect.forwardToAgent t'
        ∈ (TranscriptionsWorker.process cfg now s t).2)
      ↔ t.is_final = true ∧ pyStrip t.message ≠ []
          ∧ t.message ≠ HUMAN_ACTIVITY_DETECTED := by
  unfold TranscriptionsWorker.process
  by_cases hempty : pyStrip t.message = ([] : PyStr)
  · rw [if_pos hempty]
    simp [hempty]
  · rw [if_neg hempty]
    have hsc : should_check_interrupt
        (latchHumanHasSpoken (processEntry now s t) t) = false := by
      unfold should_check_interrupt latchHumanHasSpoken processEntry
      split <;> simp [hbot, hsyn, hinit]
    unfold processChecked
    rw [hsc]
    simp only [Bool.false_eq_true, if_false]
    rw [processRest_forward_iff cfg false _ t _ (by intro t'; simp)]
    simp [hempty]

/-- A final, non-sentinel transcription with full confidence. -/
def goodFinal : Transcription :=
  { message := "please stop talking now".toList
    confidence := 1
    is_final := true
    is_interrupt := false }

/-- Closed instance of the amended C5 theorem: in the no-check state a final
non-sentinel transcription is forwarded to the agent. -/
theorem no_check_forward_iff_witness :
    ∃ t', Effect.forwardToAgent t'
      ∈ (TranscriptionsWorker.process cfgDemo 7 noCheckState goodFinal).2 :=
  (no_check_forward_iff cfgDemo 7 noCheckState goodFinal rfl rfl rfl).mpr
    ⟨rfl, by decide, by decide⟩

/-- Counterexample to C6 as stated: a whitespace-only transcription is
dropped at line 140, BEFORE `sync_stop_follow_up_audio()` is reached (line
144), so no follow-up audio is stopped for it; the observable effect trace
is empty. -/
theorem empty_transcription_skips_stop_follow_up :
    pyStrip ("   ".toList) = ([] : PyStr)
    ∧ (TranscriptionsWorker.process cfgDemo 7 noCheckState
        { message := "   ".toList, confidence := 1,
          is_final := true, is_interrupt := false }).2 = []
    ∧ Effect.stopFollowUpAudio
        ∉ (TranscriptionsWorker.process cfgDemo 7 noCheckState
            { message := "   ".toList, confidence := 1,
              is_final := true, is_interrupt := false }).2 := by
  decide

/-- C6 (amended): for every transcription that is non-empty after stripping,
`sync_stop_follow_up_audio()` is the first observable action of
`TranscriptionsWorker.process` — before the transcription is dropped or
forwarded; empty or whitespace-only transcriptions are dropped without it. -/
theorem stop_follow_up_first_on_nonempty (cfg : TranscriberConfig) (now : ℚ)
    (s : ConvState) (t : Transcription) (h : pyStrip t.message ≠ []) :
    ∃ tail, (TranscriptionsWorker.process cfg now s t).2
      = Effect.stopFollowUpAudio :: tail := by
  unfold TranscriptionsWorker.process
  rw [if_neg h]
  unfold processChecked
  split
  · split
    · obtain ⟨tail, htail⟩ := processRest_effects_append cfg
        (should_check_interrupt (latchHumanHasSpoken (processEntry now s t) t))
        { (broadcast_interrupt (latchHumanHasSpoken (processEntry now s t) t)).1 with
            current_transcription_is_interrupt :=
              (broadcast_interrupt (latchHumanHasSpoken (processEntry now s t) t)).2 }
        t
        [Effect.stopFollowUpAudio,
         Effect.broadcastedInterrupt
           (broadcast_interrupt (latchHumanHasSpoken (processEntry now s t) t)).2,
         Effect.enqueueBacktrackAudio]
      exact ⟨_, by rw [htail]; rfl⟩
    · exact ⟨[], rfl⟩
  · obtain ⟨tail, htail⟩ := processRest_effects_append cfg
      (should_check_interrupt (latchHumanHasSpoken (processEntry now s t) t))
      (latchHumanHasSpoken (processEntry now s t) t) t
      [Effect.stopFollowUpAudio]
    exact ⟨tail, by simpa using htail⟩

/-- Closed instance of the amended C6 theorem: a non-empty transcription's
effect trace starts by stopping the follow-up audio. -/
theorem stop_follow_up_first_on_nonempty_witness :
    ∃ tail, (TranscriptionsWorker.process cfgDemo 7 noCheckState goodFinal).2
      = Effect.stopFollowUpAudio :: tail :=
  stop_follow_up_first_on_nonempty cfgDemo 7 noCheckState goodFinal (by decide)

/-- Once the turn is marked cut off, the emit loop never breaks again: it
emits every remaining chunk, preserves `message_sent`, advances `chunk_idx`
by the number of chunks and keeps `seconds_spoken = chunk_idx *
seconds_per_chunk`. -/
theorem sendSpeechLoop_already_cut (sfs : PyStr → ℚ → Bool) (spc : ℚ)
    (message : PyStr) (gmut : ℚ → PyStr) (stopSet : Nat → Bool)
    (cs : List ChunkResult) :
    ∀ st : EmitState, st.cut_off = true →
      (sendSpeechLoop sfs spc message gmut stopSet cs st).message_sent
          = st.message_sent
      ∧ (sendSpeechLoop sfs spc message gmut stopSet cs st).cut_off = true
      ∧ (sendSpeechLoop sfs spc message gmut stopSet cs st).chunk_idx
          = st.chunk_idx + cs.length
      ∧ (sendSpeechLoop sfs spc message gmut stopSet cs st).emitted
          = st.emitted ++ cs.map (fun c => c.chunk)
      ∧ (st.seconds_spoken = st.chunk_idx * spc →
          (sendSpeechLoop sfs spc message gmut stopSet cs st).seconds_spoken
            = ((st.chunk_idx + cs.length : Nat) : ℚ) * spc) := by
  induction cs with
  | nil =>
    intro st h
    refine ⟨rfl, h, by simp [sendSpeechLoop], by simp [sendSpeechLoop], ?_⟩
    intro hs
    simpa [sendSpeechLoop] using hs
  | cons c rest ih =>
    intro st h
    have hcond : ¬ (stopSet st.chunk_idx = true ∧ ¬ st.cut_off = true) := by
      simp [h]
    unfold sendSpeechLoop
    rw [if_neg hcond]
    have h' : (emitChunk spc gmut c st st.cut_off).cut_off = true := by
      simp [emitChunk, h]
    obtain ⟨m, cut, idx, em, sec⟩ :=
      ih (emitChunk spc gmut c st st.cut_off) h'
    have hidx : (emitChunk spc gmut c st st.cut_off).chunk_idx
        = st.chunk_idx + 1 := rfl
    refine ⟨by simpa [emitChunk] using m, cut, ?_, ?_, ?_⟩
    · rw [idx, hidx]
      simp
      omega
    · rw [em]
      simp [emitChunk]
    · intro _
      have hpre : (emitChunk spc gmut c st st.cut_off).seconds_spoken
          = (emitChunk spc gmut c st st.cut_off).chunk_idx * spc := by
        simp [emitChunk]
        ring
      rw [sec hpre, hidx]
      have : st.chunk_idx + 1 + rest.length
          = st.chunk_idx + (c :: rest).length := by
        simp
        omega
      rw [this]

/-- While the stop event stays unset and the turn is not cut off, the emit
loop emits every chunk, leaves `message_sent` and `cut_off` untouched, and
keeps the pacing invariant. -/
theorem sendSpeechLoop_no_stop (sfs : PyStr → ℚ → Bool) (spc : ℚ)
    (message : PyStr) (gmut : ℚ → PyStr) (stopSet : Nat → Bool)
    (cs : List ChunkResult) :
    ∀ st : EmitState, st.cut_off = false →
      (∀ j, st.chunk_idx ≤ j → j < st.chunk_idx + cs.length →
        stopSet j = false) →
      (sendSpeechLoop sfs spc message gmut stopSet cs st).message_sent
          = st.message_sent
      ∧ (sendSpeechLoop sfs spc message gmut stopSet cs st).cut_off = false
      ∧ (sendSpeechLoop sfs spc message gmut stopSet cs st).chunk_idx
          = st.chunk_idx + cs.length
      ∧ (sendSpeechLoop sfs spc message gmut stopSet cs st).emitted
          = st.emitted ++ cs.map (fun c => c.chunk)
      ∧ (st.seconds_spoken = st.chunk_idx * spc →
          (sendSpeechLoop sfs spc message gmut stopSet cs st).seconds_spoken
            = ((st.chunk_idx + cs.length : Nat) : ℚ) * spc) := by
  induction cs with
  | nil =>
    intro st h _
    refine ⟨rfl, h, by simp [sendSpeechLoop], by simp [sendSpeechLoop], ?_⟩
    intro hs
    simpa [sendSpeechLoop] using hs
  | cons c rest ih =>
    intro st h hstop
    have hfirst : stopSet st.chunk_idx = false :=
      hstop st.chunk_idx le_rfl (by simp)
    have hcond : ¬ (stopSet st.chunk_idx = true ∧ ¬ st.cut_off = true) := by
      simp [hfirst]
    unfold sendSpeechLoop
    rw [if_neg hcond]
    have h' : (emitChunk spc gmut c st st.cut_off).cut_off = false := by
      simp [emitChunk, h]
    have hidx : (emitChunk spc gmut c st st.cut_off).chunk_idx
        = st.chunk_idx + 1 := rfl
    have hstop' : ∀ j, (emitChunk spc gmut c st st.cut_off).chunk_idx ≤ j →
        j < (emitChunk spc gmut c st st.cut_off).chunk_idx + rest.length →
        stopSet j = false := by
      intro j hj1 hj2
      rw [hidx] at hj1 hj2
      exact hstop j (by omega) (by simp; omega)
    obtain ⟨m, cut, idx, em, sec⟩ :=
      ih (emitChunk spc gmut c st st.cut_off) h' hstop'
    refine ⟨by simpa [emitChunk] using m, cut, ?_, ?_, ?_⟩
    · rw [idx, hidx]
      simp
      omega
    · rw [em]
      simp [emitChunk]
    · intro _
      have hpre : (emitChunk spc gmut c st st.cut_off).seconds_spoken
          = (emitChunk spc gmut c st st.cut_off).chunk_idx * spc := by
        simp [emitChunk]
        ring
      rw [sec hpre, hidx]
      have : st.chunk_idx + 1 + rest.length
          = st.chunk_idx + (c :: rest).length := by
        simp
        omega
      rw [this]

/-- The emit loop never rewrites `message_sent` without also marking the
turn cut off. -/
theorem sendSpeechLoop_message_invariant (sfs : PyStr → ℚ → Bool) (spc : ℚ)
    (message : PyStr) (gmut : ℚ → PyStr) (stopSet : Nat → Bool)
    (cs : List ChunkResult) :
    ∀ st : EmitState, (st.message_sent = message ∨ st.cut_off = true) →
      ((sendSpeechLoop sfs spc message gmut stopSet cs st).message_sent = message
        ∨ (sendSpeechLoop sfs spc message gmut stopSet cs st).cut_off = true) := by
  induction cs with
  | nil => intro st h; exact h
  | cons c rest ih =>
    intro st h
    unfold sendSpeechLoop
    split
    · split
      · refine ih _ ?_
        rcases h with h | h
        · exact Or.inl (by simpa [emitChunk] using h)
        · exact Or.inr (by simp [emitChunk])
      · exact Or.inr rfl
    · refine ih _ ?_
      rcases h with h | h
      · exact Or.inl (by simpa [emitChunk] using h)
      · exact Or.inr (by simpa [emitChunk] using h)

/-- The emit loop keeps the transcript message present exactly when one was
supplied. -/
theorem sendSpeechLoop_transcript_isSome (sfs : PyStr → ℚ → Bool) (spc : ℚ)
    (message : PyStr) (gmut : ℚ → PyStr) (stopSet : Nat → Bool)
    (cs : List ChunkResult) :
    ∀ st : EmitState,
      (sendSpeechLoop sfs spc message gmut stopSet cs st).transcript_text.isSome
        = st.transcript_text.isSome := by
  induction cs with
  | nil => intro st; rfl
  | cons c rest ih =>
    intro st
    unfold sendSpeechLoop
    split
    · split
      · rw [ih]
        cases htt : st.transcript_text <;> simp [emitChunk, htt]
      · rfl
    · rw [ih]
      cases htt : st.transcript_text <;> simp [emitChunk, htt]

/-- C9: when `send_speech_to_output` returns with `cut_off = false`, the
returned `message_sent` is the full message text unchanged; and whenever a
transcript message is supplied, its text equals the returned `message_sent`
at the moment the function returns, whether or not the turn was cut off. -/
theorem send_speech_message_sent_spec (sfs : PyStr → ℚ → Bool) (spc : ℚ)
    (message : PyStr) (sr : SynthesisResult) (stopSet : Nat → Bool)
    (tm : Option PyStr) :
    ((send_speech_to_output sfs spc message sr stopSet tm).cut_off = false →
      (send_speech_to_output sfs spc message sr stopSet tm).message_sent
        = message)
    ∧ (tm.isSome = true →
      (send_speech_to_output sfs spc message sr stopSet tm).transcript_text
        = some (send_speech_to_output sfs spc message sr stopSet tm).message_sent) := by
  constructor
  · intro hcut
    have hinv := sendSpeechLoop_message_invariant sfs spc message
      sr.get_message_up_to stopSet sr.chunk_generator
      { message_sent := message, cut_off := false, chunk_idx := 0,
        seconds_spoken := 0, emitted := [], transcript_text := tm }
      (Or.inl rfl)
    rcases hinv with h | h
    · exact h
    · exact absurd hcut (by simp [send_speech_to_output, h])
  · intro hsome
    have hs := sendSpeechLoop_transcript_isSome sfs spc message
      sr.get_message_up_to stopSet sr.chunk_generator
      { message_sent := message, cut_off := false, chunk_idx := 0,
        seconds_spoken := 0, emitted := [], transcript_text := tm }
    unfold send_speech_to_output
    rw [hsome] at hs
    obtain ⟨x, hx⟩ := Option.isSome_iff_exists.mp hs
    simp [hx]

/-- Master characterisation of the emit loop around the first iteration at
which the stop event is observed set (`k` iterations after the current
state): if `should_finish_sentence` approves, the turn is marked cut off but
every remaining chunk is still emitted; otherwise `message_sent` becomes the
spoken prefix plus `"-"`, the turn is cut off, and emission stops at once. -/
theorem sendSpeechLoop_stop_behavior (sfs : PyStr → ℚ → Bool) (spc : ℚ)
    (message : PyStr) (gmut : ℚ → PyStr) (stopSet : Nat → Bool) :
    ∀ (cs : List ChunkResult) (k : Nat) (st : EmitState),
      st.cut_off = false →
      st.seconds_spoken = st.chunk_idx * spc →
      (∀ j, st.chunk_idx ≤ j → j < st.chunk_idx + k → stopSet j = false) →
      stopSet (st.chunk_idx + k) = true →
      k < cs.length →
      (sfs message (((st.chunk_idx + k : Nat) : ℚ) * spc) = true →
        (sendSpeechLoop sfs spc message gmut stopSet cs st).message_sent
            = st.message_sent
        ∧ (sendSpeechLoop sfs spc message gmut stopSet cs st).cut_off = true
        ∧ (sendSpeechLoop sfs spc message gmut stopSet cs st).seconds_spoken
            = ((st.chunk_idx + cs.length : Nat) : ℚ) * spc
        ∧ (sendSpeechLoop sfs spc message gmut stopSet cs st).emitted
            = st.emitted ++ cs.map (fun c => c.chunk))
      ∧ (sfs message (((st.chunk_idx + k : Nat) : ℚ) * spc) = false →
        (sendSpeechLoop sfs spc message gmut stopSet cs st).message_sent
            = gmut (((st.chunk_idx + k : Nat) : ℚ) * spc) ++ ['-']
        ∧ (sendSpeechLoop sfs spc message gmut stopSet cs st).cut_off = true
        ∧ (sendSpeechLoop sfs spc message gmut stopSet cs st).seconds_spoken
            = ((st.chunk_idx + k : Nat) : ℚ) * spc
        ∧ (sendSpeechLoop sfs spc message gmut stopSet cs st).emitted
            = st.emitted ++ (cs.take k).map (fun c => c.chunk)) := by
  intro cs
  induction cs with
  | nil =>
    intro k st _ _ _ _ hlen
    exact absurd hlen (by simp)
  | cons c rest ih =>
    intro k st hcut hsec hfirst hstop hlen
    cases k with
    | zero =>
      have hcond : stopSet st.chunk_idx = true ∧ ¬ st.cut_off = true := by
        refine ⟨by simpa using hstop, by simp [hcut]⟩
      unfold sendSpeechLoop
      rw [if_pos hcond]
      constructor
      · intro hsfs
        rw [Nat.add_zero] at hsfs
        rw [if_pos hsfs]
        obtain ⟨m, cut, idx, em, sec⟩ :=
          sendSpeechLoop_already_cut sfs spc message gmut stopSet rest
            (emitChunk spc gmut c st true) rfl
        have hpre : (emitChunk spc gmut c st true).seconds_spoken
            = (emitChunk spc gmut c st true).chunk_idx * spc := by
          simp [emitChunk]
          ring
        refine ⟨by simpa [emitChunk] using m, cut, ?_, ?_⟩
        · rw [sec hpre]
          have : (emitChunk spc gmut c st true).chunk_idx + rest.length
              = st.chunk_idx + (c :: rest).length := by
            simp [emitChunk]
            omega
          rw [this]
        · rw [em]
          simp [emitChunk]
      · intro hsfs
        rw [Nat.add_zero] at hsfs
        rw [if_neg (by simp [hsfs])]
        refine ⟨by simp, rfl, by simp, by simp⟩
    | succ k' =>
      have hskip : stopSet st.chunk_idx = false :=
        hfirst st.chunk_idx le_rfl (by omega)
      have hcond : ¬ (stopSet st.chunk_idx = true ∧ ¬ st.cut_off = true) := by
        simp [hskip]
      unfold sendSpeechLoop
      rw [if_neg hcond]
      have hcut' : (emitChunk spc gmut c st st.cut_off).cut_off = false := by
        simp [emitChunk, hcut]
      have hsec' : (emitChunk spc gmut c st st.cut_off).seconds_spoken
          = (emitChunk spc gmut c st st.cut_off).chunk_idx * spc := by
        simp [emitChunk]
        ring
      have hidx : (emitChunk spc gmut c st st.cut_off).chunk_idx
          = st.chunk_idx + 1 := rfl
      have hfirst' : ∀ j, (emitChunk spc gmut c st st.cut_off).chunk_idx ≤ j →
          j < (emitChunk spc gmut c st st.cut_off).chunk_idx + k' →
          stopSet j = false := by
        intro j hj1 hj2
        rw [hidx] at hj1 hj2
        exact hfirst j (by omega) (by omega)
      have hstop' : stopSet ((emitChunk spc gmut c st st.cut_off).chunk_idx + k')
          = true := by
        rw [hidx]
        have : st.chunk_idx + 1 + k' = st.chunk_idx + (k' + 1) := by omega
        rw [this]
        exact hstop
      have hlen' : k' < rest.length := by
        simpa using Nat.lt_of_succ_lt_succ hlen
      obtain ⟨htrue, hfalse⟩ :=
        ih k' (emitChunk spc gmut c st st.cut_off) hcut' hsec' hfirst' hstop' hlen'
      have hidx2 : (emitChunk spc gmut c st st.cut_off).chunk_idx + k'
          = st.chunk_idx + (k' + 1) := by
        rw [hidx]
        omega
      rw [hidx2] at htrue hfalse
      constructor
      · intro hsfs
        obtain ⟨m, cut, sec, em⟩ := htrue hsfs
        refine ⟨by simpa [emitChunk] using m, cut, ?_, ?_⟩
        · rw [sec]
          have : (emitChunk spc gmut c st st.cut_off).chunk_idx + rest.length
              = st.chunk_idx + (c :: rest).length := by
            rw [hidx]
            simp
            omega
          rw [this]
        · rw [em]
          simp [emitChunk]
      · intro hsfs
        obtain ⟨m, cut, sec, em⟩ := hfalse hsfs
        refine ⟨m, cut, sec, ?_⟩
        rw [em]
        simp [emitChunk, List.take_succ_cons]

/-- C3: in `send_speech_to_output`, when the stop event is first observed set
at chunk index `i` (and the turn is not already cut off): if
`should_finish_sentence(message, seconds_spoken)` is true the emitter sets
`cut_off` but keeps emitting every remaining chunk and `message_sent` stays
the full message; otherwise it sets `message_sent` to
`get_message_up_to(seconds_spoken) + "-"`, sets `cut_off`, and stops emitting
immediately; in both cases the function returns the triple
`(message_sent, cut_off, seconds_spoken)` with these values. -/
theorem send_speech_stop_event_spec (sfs : PyStr → ℚ → Bool) (spc : ℚ)
    (message : PyStr) (sr : SynthesisResult) (stopSet : Nat → Bool)
    (tm : Option PyStr) (i : Nat)
    (hfirst : ∀ j, j < i → stopSet j = false) (hstop : stopSet i = true)
    (hlen : i < sr.chunk_generator.length) :
    (sfs message ((i : ℚ) * spc) = true →
      (send_speech_to_output sfs spc message sr stopSet tm).message_sent
          = message
      ∧ (send_speech_to_output sfs spc message sr stopSet tm).cut_off = true
      ∧ (send_speech_to_output sfs spc message sr stopSet tm).seconds_spoken
          = ((sr.chunk_generator.length : Nat) : ℚ) * spc
      ∧ (send_speech_to_output sfs spc message sr stopSet tm).emitted
          = sr.chunk_generator.map (fun c => c.chunk))
    ∧ (sfs message ((i : ℚ) * spc) = false →
      (send_speech_to_output sfs spc message sr stopSet tm).message_sent
          = sr.get_message_up_to ((i : ℚ) * spc) ++ ['-']
      ∧ (send_speech_to_output sfs spc message sr stopSet tm).cut_off = true
      ∧ (send_speech_to_output sfs spc message sr stopSet tm).seconds_spoken
          = ((i : Nat) : ℚ) * spc
      ∧ (send_speech_to_output sfs spc message sr stopSet tm).emitted
          = (sr.chunk_generator.take i).map (fun c => c.chunk)) := by
  have h := sendSpeechLoop_stop_behavior sfs spc message sr.get_message_up_to
    stopSet sr.chunk_generator i
    { message_sent := message, cut_off := false, chunk_idx := 0,
      seconds_spoken := 0, emitted := [], transcript_text := tm }
    rfl (by simp) (fun j _ hj => hfirst j (by simpa using hj))
    (by simpa using hstop) hlen
  simp only [Nat.zero_add] at h
  obtain ⟨htrue, hfalse⟩ := h
  constructor
  · intro hsfs
    obtain ⟨m, cut, sec, em⟩ := htrue hsfs
    exact ⟨m, cut, sec, by simpa [send_speech_to_output] using em⟩
  · intro hsfs
    obtain ⟨m, cut, sec, em⟩ := hfalse hsfs
    exact ⟨m, cut, sec, by simpa [send_speech_to_output] using em⟩

/-- A concrete two-chunk synthesis result for the closed scenarios. -/
def demoSynth : SynthesisResult :=
  { chunk_generator :=
      [{ chunk := [1, 2], is_last := false }, { chunk := [3, 4], is_last := true }]
    get_message_up_to := fun _ => "Hello wo".toList }

/-- Closed instance of the C3 theorem: the stop event is set from the first
chunk and `should_finish_sentence` declines, so the emitter returns the
spoken prefix plus `"-"`, cut off, with no chunk emitted. -/
theorem send_speech_stop_event_spec_witness :
    (send_speech_to_output (fun _ _ => false) 2 ("Hello world".toList)
        demoSynth (fun _ => true) none).message_sent
      = demoSynth.get_message_up_to (((0 : Nat) : ℚ) * 2) ++ ['-']
    ∧ (send_speech_to_output (fun _ _ => false) 2 ("Hello world".toList)
        demoSynth (fun _ => true) none).cut_off = true
    ∧ (send_speech_to_output (fun _ _ => false) 2 ("Hello world".toList)
        demoSynth (fun _ => true) none).seconds_spoken = ((0 : Nat) : ℚ) * 2
    ∧ (send_speech_to_output (fun _ _ => false) 2 ("Hello world".toList)
        demoSynth (fun _ => true) none).emitted
      = (demoSynth.chunk_generator.take 0).map (fun c => c.chunk) :=
  (send_speech_stop_event_spec (fun _ _ => false) 2 ("Hello world".toList)
    demoSynth (fun _ => true) none 0
    (fun j hj => absurd hj (by omega)) rfl (by decide)).2 rfl

/-- Closed instance of the C9 theorem: an undisturbed two-chunk turn returns
the full message, and the supplied transcript message ends up holding exactly
the returned `message_sent`. -/
theorem send_speech_message_sent_spec_witness :
    (send_speech_to_output (fun _ _ => false) 2 ("Hello world".toList)
        demoSynth (fun _ => false) (some [])).message_sent
      = "Hello world".toList
    ∧ (send_speech_to_output (fun _ _ => false) 2 ("Hello world".toList)
        demoSynth (fun _ => false) (some [])).transcript_text
      = some ((send_speech_to_output (fun _ _ => false) 2 ("Hello world".toList)
          demoSynth (fun _ => false) (some [])).message_sent) := by
  have h := send_speech_message_sent_spec (fun _ _ => false) 2
    ("Hello world".toList) demoSynth (fun _ => false) (some [])
  exact ⟨h.1 (by decide), h.2 rfl⟩

/-- Counterexample to C8 as stated: `"_"` contains no alphanumeric character,
yet `create_speech` does NOT take the empty-stream early return for it — the
guard is `re.search(r"\w", ...)` and `\w` also matches the underscore, so the
code proceeds into the Azure SDK synthesis path. -/
theorem create_speech_underscore_counterexample :
    (∀ c ∈ ("_".toList : PyStr), c.isAlphanum = false)
    ∧ (create_speech_empty_path ("_".toList)).isSome = false := by
  decide

/-- C8 (amended): for every message whose text contains no `\w` word
character (alphanumeric or underscore), `create_speech` returns a
`SynthesisResult` with an empty chunk stream whose `get_message_up_to`
returns the message text unchanged at every elapsed time; and
`send_speech_to_output` on any empty chunk stream completes immediately,
returning the message unchanged, `cut_off = false` and `seconds_spoken = 0`,
having emitted nothing. -/
theorem create_speech_no_word_char_empty (text : PyStr)
    (h : containsWordChar text = false) (sfs : PyStr → ℚ → Bool) (spc : ℚ)
    (message : PyStr) (stopSet : Nat → Bool) (tm : Option PyStr) :
    (∃ sr, create_speech_empty_path text = some sr
      ∧ sr.chunk_generator = []
      ∧ ∀ q : ℚ, sr.get_message_up_to q = text)
    ∧ ∀ sr : SynthesisResult, sr.chunk_generator = [] →
        send_speech_to_output sfs spc message sr stopSet tm
          = { message_sent := message, cut_off := false, seconds_spoken := 0,
              emitted := [], transcript_text := tm.map fun _ => message } := by
  constructor
  · refine ⟨{ chunk_generator := [], get_message_up_to := fun _ => text },
      ?_, rfl, fun q => rfl⟩
    unfold create_speech_empty_path
    rw [if_pos (by simp [h])]
  · intro sr hsr
    unfold send_speech_to_output
    rw [hsr]
    rfl

/-- Closed instance of the amended C8 theorem at the message `"!?"`. -/
theorem create_speech_no_word_char_empty_witness :
    (∃ sr, create_speech_empty_path ("!?".toList) = some sr
      ∧ sr.chunk_generator = []
      ∧ ∀ q : ℚ, sr.get_message_up_to q = "!?".toList)
    ∧ ∀ sr : SynthesisResult, sr.chunk_generator = [] →
        send_speech_to_output (fun _ _ => false) 2 ("Hi".toList) sr
            (fun _ => false) none
          = { message_sent := "Hi".toList, cut_off := false,
              seconds_spoken := 0, emitted := [], transcript_text := none } :=
  create_speech_no_word_char_empty ("!?".toList) (by decide)
    (fun _ _ => false) 2 ("Hi".toList) (fun _ => false) none

end Vocode
